import Mathlib

/-!
Shallow embedding of the heap-dump decoding and adjacency-analysis tools of
the `novos` repository (`tools/parse_heap_raw.py`, `tools/process_raw_serial_dump.py`,
`tools/sort_block_output.py`), together with theorems settling the spec's claims.

Bytes are modelled as `Nat` values (file bytes are always `< 256`); byte buffers
are `List Nat`.  Python's fallible single-element indexing (`xs[i]`, which raises
`IndexError` out of range) is modelled with `getElem?`; Python slices (which
silently truncate) are modelled with `drop`/`take`.  A Python script that prints
an error and exits (or dies on an uncaught exception) is modelled as a function
into `Except`; advisory warnings that are merely printed are modelled as `Bool`
flags carried in the result.
-/

namespace Novos

/-- Little-endian byte interpretation, as Python `int.from_bytes(bs, "little")`.
An empty list yields 0, exactly like `int.from_bytes(b"", "little")`. -/
def leNat : List Nat → Nat
  | [] => 0
  | b :: rest => b + 256 * leNat rest

/-- Little-endian encoding of `n` into exactly `k` bytes (used for the
spec-described re-encoding of a decoded record). -/
def leBytes : Nat → Nat → List Nat
  | _, 0 => []
  | n, k + 1 => n % 256 :: leBytes (n / 256) k

/-- Python slice `l[start : start+len]`: out-of-range parts silently truncate. -/
def slice (l : List Nat) (start len : Nat) : List Nat :=
  (l.drop start).take len

namespace ParseHeapRaw

/-- The `Block` class of `tools/parse_heap_raw.py`. -/
structure Block where
  size : Nat
  is_free : Bool
  addr : Nat
  is_reuseable : Bool
deriving DecidableEq

/-- Decoding of one 32-byte chunk, as in the body of `HeapRepr.parse`:
`size = int.from_bytes(buf[0:8], "little")`, `is_free = bool(buf[8])`,
`addr = int.from_bytes(buf[9:17], "little")`, `is_reuseable = bool(buf[17])`.
Python's `bool()` is truthiness, i.e. nonzero is `True`. -/
def parseChunk (buf : List Nat) : Block :=
  { size := leNat (slice buf 0 8)
    is_free := buf.getD 8 0 != 0
    addr := leNat (slice buf 9 8)
    is_reuseable := buf.getD 17 0 != 0 }

/-- `HeapRepr.parse`: `for i in range(0, len(self.bytes), 0x20)` take the slice
`bytes[i:i+0x20]` and decode it.  `range(0, n, 32)` has `(n + 31) / 32`
elements, each giving `i = 32 * k`. -/
def parse (bytes : List Nat) : List Block :=
  (List.range ((bytes.length + 31) / 32)).map fun k => parseChunk (slice bytes (32 * k) 32)

/-- Failure mode of `HeapRepr.__init__`: the `assert len(self.bytes) % 0x20 == 0`. -/
inductive HeapError where
  | framing
deriving DecidableEq

/-- `HeapRepr.__init__`: loads the bytes, asserts the length is a multiple of
0x20 (a failed `assert` aborts the script with no blocks produced), then parses. -/
def init (bytes : List Nat) : Except HeapError (List Block) :=
  if bytes.length % 32 = 0 then .ok (parse bytes) else .error .framing

/-- Re-encoding of a decoded record back to 32 bytes, following the spec's
words: size as LE u64 at [0,8), `is_free` at byte 8, address as LE u64 at
[9,17), `is_reusable` at byte 17, zero-filled reserved region.  This is the
spec-side definition used by the round-trip claim, not code from the repo. -/
def encodeRecord (b : Block) : List Nat :=
  leBytes b.size 8 ++ [if b.is_free then 1 else 0] ++
    leBytes b.addr 8 ++ [if b.is_reuseable then 1 else 0] ++ List.replicate 14 0

end ParseHeapRaw

/-- Strict UTF-8 validity of a byte string, exactly the encoding accepted by
Python's `bytes.decode('utf-8')` (RFC 3629: no overlongs, no surrogates,
nothing above U+10FFFF).  Used to model whether the `filename.decode('utf-8')`
call in `tools/process_raw_serial_dump.py` raises `UnicodeDecodeError`. -/
def contB (b : Nat) : Bool := 0x80 ≤ b && b ≤ 0xBF

/-- Validity of a whole byte string as strict UTF-8 (see `contB`). -/
def validUtf8 : List Nat → Bool
  | [] => true
  | b :: rest =>
    if b ≤ 0x7F then validUtf8 rest
    else if b < 0xC2 then false
    else if b ≤ 0xDF then
      match rest with
      | c1 :: r => contB c1 && validUtf8 r
      | [] => false
    else if b ≤ 0xEF then
      match rest with
      | c1 :: c2 :: r =>
        (if b = 0xE0 then 0xA0 ≤ c1 && c1 ≤ 0xBF
         else if b = 0xED then 0x80 ≤ c1 && c1 ≤ 0x9F
         else contB c1) && contB c2 && validUtf8 r
      | _ => false
    else if b ≤ 0xF4 then
      match rest with
      | c1 :: c2 :: c3 :: r =>
        (if b = 0xF0 then 0x90 ≤ c1 && c1 ≤ 0xBF
         else if b = 0xF4 then 0x80 ≤ c1 && c1 ≤ 0x8F
         else contB c1) && contB c2 && contB c3 && validUtf8 r
      | _ => false
    else false

namespace ProcessRawSerialDump

/-- The `Block` class of `tools/process_raw_serial_dump.py`. -/
structure Block where
  size : Nat
  is_free : Bool
  address : Nat
  is_reuseable : Bool
deriving DecidableEq

/-- The constant of line 6: `int.from_bytes(b"TEST", "little") << 16`
(`b"TEST" = [0x54, 0x45, 0x53, 0x54]`). -/
def TEST_ALLOCATOR_SIGN : Nat := leNat [0x54, 0x45, 0x53, 0x54] <<< 16

/-- The `read_block` function at cursor position `index`.  The two
`read_bytes(8)` calls are Python slices (never raising); the two `read_byte()`
calls index element `[0]` of a one-byte slice and raise `IndexError` when the
slice is empty, modelled by `getElem?` returning `none`.  The returned `Bool`
records whether the advisory `err("Invalid address: ...")` line was printed,
i.e. whether `address & 0xFFFF000000000000 == TEST_ALLOCATOR_SIGN` failed. -/
def read_block (data : List Nat) (index : Nat) : Option (Block × Bool) :=
  let size := leNat (slice data index 8)
  match data[index + 8]? with
  | none => none
  | some fb =>
    let address := leNat (slice data (index + 9) 8)
    match data[index + 17]? with
    | none => none
    | some rb =>
      some ({ size := size, is_free := fb = 1, address := address,
              is_reuseable := rb = 1 },
            !(address &&& 0xFFFF000000000000 == TEST_ALLOCATOR_SIGN))

/-- Fuel-indexed form of the record-reading loop
`while index+32 < len(data): blocks.append(read_block())`.
Each iteration advances the cursor by 18, so `data.length` iterations of fuel
are always enough (`readBlocksGo_stable` below makes this precise). -/
def readBlocksGo (data : List Nat) : Nat → Nat → Option (List (Block × Bool))
  | 0, _ => some []
  | fuel + 1, index =>
    if index + 32 < data.length then
      match read_block data index, readBlocksGo data fuel (index + 18) with
      | some bw, some rest => some (bw :: rest)
      | _, _ => none
    else some []

/-- The record-reading loop of `tools/process_raw_serial_dump.py`, lines 63-64,
started at cursor `index`. -/
def readBlocks (data : List Nat) (index : Nat) : Option (List (Block × Bool)) :=
  readBlocksGo data data.length index

/-- Fatal failure modes of the serial-dump script: an `IndexError` from
`read_byte` on an exhausted buffer, the `exit(-1)` after "Invalid command",
and the uncaught `UnicodeDecodeError` from `bytes(filename).decode('utf-8')`. -/
inductive DecodeError where
  | oobRead
  | invalidCommand
  | filenameNotUtf8
deriving DecidableEq

/-- Result of a successful run of the serial-dump script: the raw filename
bytes, the announced file size, whether the advisory "File size is too small"
warning was printed (`file_size >= len(data)`), the decoded blocks, and for
each block whether the advisory "Invalid address" warning was printed. -/
structure DecodeOutput where
  filename : List Nat
  fileSize : Nat
  fileSizeWarn : Bool
  blocks : List Block
  blockWarns : List Bool
deriving DecidableEq

/-- The whole straight-line serial-dump script, as a function of the input
bytes (Python's global `data`): read the command byte (fatal `IndexError` on an
empty buffer, fatal exit unless it equals 0x01), read the filename length byte,
slice out the filename (fatal uncaught exception unless it decodes as UTF-8),
read the 4-byte announced size with its advisory warning, then run the record
loop from cursor `6 + filename_length`. -/
def decode (data : List Nat) : Except DecodeError DecodeOutput :=
  match data[0]? with
  | none => .error .oobRead
  | some command =>
    if command = 1 then
      match data[1]? with
      | none => .error .oobRead
      | some fl =>
        let filename := slice data 2 fl
        if validUtf8 filename then
          let fileSize := leNat (slice data (2 + fl) 4)
          match readBlocks data (6 + fl) with
          | none => .error .oobRead
          | some bws =>
            .ok { filename := filename, fileSize := fileSize,
                  fileSizeWarn := decide (data.length ≤ fileSize),
                  blocks := bws.map Prod.fst, blockWarns := bws.map Prod.snd }
        else .error .filenameNotUtf8
    else .error .invalidCommand

end ProcessRawSerialDump

namespace SortBlockOutput

/-- The `Block` class of `tools/sort_block_output.py` (`id` is the original CSV
row index assigned by `enumerate`, `address` the parsed hex block number). -/
structure Block where
  id : Nat
  address : Nat
  size : Nat
  is_allocated : Bool
  is_free : Bool
deriving DecidableEq

/-- `Block.is_next_to`:
`self.address + self.size == other.address or self.address == other.address + other.size`. -/
def is_next_to (a b : Block) : Bool :=
  a.address + a.size == b.address || a.address == b.address + b.size

/-- Stable insertion of a block into an address-sorted list, placing it before
any later block of equal address (so that `sortBlocks` is the unique stable
ascending sort by `address`, which is exactly what Python's stable
`list.sort(key=lambda x: x.address)` computes). -/
def insertBlock (b : Block) : List Block → List Block
  | [] => [b]
  | x :: xs => if b.address ≤ x.address then b :: x :: xs else x :: insertBlock b xs

/-- The sort of line 32, `sorted_data.sort(key=lambda x: x.address)`, as a
stable insertion sort. -/
def sortBlocks : List Block → List Block
  | [] => []
  | x :: xs => insertBlock x (sortBlocks xs)

/-- One per-block line of the adjacency report: the block is printed as "next
to" one other block, or as "not next to any other block". -/
inductive Adjacency where
  | nextTo (other : Block)
  | isolated
deriving DecidableEq

/-- The body of the report loop (lines 38-49) at sorted position `i`:
if a previous block exists and `last_block.is_next_to(block)`, report it and
`continue`; else if a next block exists and `block.is_next_to(next_block)`,
report it; else report isolation.  (For `i = 0` Python's `sorted_data[i-1]`
would be `sorted_data[-1]`, but the `if last_block and ...` guard
short-circuits, so index `-1` is never consulted.) -/
def reportAt (s : List Block) (i : Nat) : Adjacency :=
  let dummy : Block := { id := 0, address := 0, size := 0,
                         is_allocated := false, is_free := false }
  let block := s.getD i dummy
  if 0 < i ∧ is_next_to (s.getD (i - 1) dummy) block then .nextTo (s.getD (i - 1) dummy)
  else if i + 1 < s.length ∧ is_next_to block (s.getD (i + 1) dummy) then
    .nextTo (s.getD (i + 1) dummy)
  else .isolated

/-- The full report loop, `for i in range(len(sorted_data))`. -/
def adjacencyReport (s : List Block) : List Adjacency :=
  (List.range s.length).map (reportAt s)

/-- The analyzer run on a decoded block list: sort an address-ordered copy and
report adjacency for each sorted position. -/
def analyze (data : List Block) : List Adjacency :=
  adjacencyReport (sortBlocks data)

/-- The analyzer's whole mutable state, made explicit: the script binds
`sorted_data = data.copy()` (a NEW list object), sorts that copy in place, and
computes the report from it; the list named `data` is never written again.
The triple is (final value of `data`, final value of `sorted_data`, report). -/
def analyzerRun (data : List Block) : List Block × List Block × List Adjacency :=
  let sorted_data := sortBlocks data
  (data, sorted_data, adjacencyReport sorted_data)

end SortBlockOutput

/-- Equality of `Except` results is decidable whenever it is on both sides,
so that concrete runs of the decoders can be settled by `decide`. -/
instance {ε α : Type} [DecidableEq ε] [DecidableEq α] : DecidableEq (Except ε α) := fun x y =>
  match x, y with
  | .error a, .error b =>
    if h : a = b then .isTrue (by rw [h]) else .isFalse (fun hh => by cases hh; exact h rfl)
  | .error _, .ok _ => .isFalse (fun hh => by cases hh)
  | .ok _, .error _ => .isFalse (fun hh => by cases hh)
  | .ok a, .ok b =>
    if h : a = b then .isTrue (by rw [h]) else .isFalse (fun hh => by cases hh; exact h rfl)

/-- Concrete framed stream of the C1 claim: header `[0x01, 0x03, 'a', 'b', 'c',
36 as LE u32]` followed by exactly two 18-byte (all-zero) records; 45 bytes. -/
def c1input : List Nat := [1, 3, 97, 98, 99, 36, 0, 0, 0] ++ List.replicate 36 0

/-- Concrete 18-byte record whose address field is `0x545345540000`, i.e. the
value of `TEST_ALLOCATOR_SIGN` itself: an address actually carrying the TEST
allocator signature. -/
def c2input : List Nat :=
  List.replicate 8 0 ++ [0] ++ [0, 0, 0x54, 0x45, 0x53, 0x54, 0, 0] ++ [0]

/-- Concrete 32-byte raw-array buffer whose `is_free` byte (offset 8) is 2:
nonzero but not 1. -/
def c3bad : List Nat := List.replicate 8 0 ++ [2] ++ List.replicate 23 0

/-- Concrete well-formed 32-byte raw-array buffer (size 5, free, address 7,
not reusable, zero padding). -/
def c3good : List Nat :=
  [5, 0, 0, 0, 0, 0, 0, 0] ++ [1] ++ [7, 0, 0, 0, 0, 0, 0, 0] ++ [0] ++ List.replicate 14 0

/-- The blocks of the C4 claim (`id`s are original input positions for the
input order `[c4B, c4C, c4A]`). -/
def c4A : SortBlockOutput.Block :=
  { id := 2, address := 0, size := 10, is_allocated := false, is_free := true }

/-- Block B of the C4 claim. -/
def c4B : SortBlockOutput.Block :=
  { id := 0, address := 10, size := 5, is_allocated := false, is_free := true }

/-- Block C of the C4 claim. -/
def c4C : SortBlockOutput.Block :=
  { id := 1, address := 100, size := 1, is_allocated := false, is_free := true }

/-- Two distinct blocks with identical addresses, for the C5 claim. -/
def c5b1 : SortBlockOutput.Block :=
  { id := 0, address := 5, size := 4, is_allocated := false, is_free := false }

/-- Second block with the same address as `c5b1`. -/
def c5b2 : SortBlockOutput.Block :=
  { id := 1, address := 5, size := 4, is_allocated := false, is_free := false }

/-- Concrete framed stream whose filename byte (length 1) is `0xFF`, which is
not valid UTF-8, followed by more than a record's worth of further bytes. -/
def c6input : List Nat := [1, 1, 255, 36, 0, 0, 0] ++ List.replicate 40 0

/-- Concrete framed stream with a 2-byte filename `[0xC2, 0x20]` (a UTF-8 lead
byte followed by a non-continuation byte: invalid). -/
def c6winput : List Nat := [1, 2, 0xC2, 0x20, 0, 0, 0, 0]

/-- Minimal framed stream with an exactly header-sized buffer (command 0x01,
empty filename, announced size 0). -/
def c10winput : List Nat := [1, 0, 0, 0, 0, 0]

/-! Helper lemmas about the sorting step of the analyzer. -/

namespace SortBlockOutput

/-- Inserting a block yields a permutation of pushing it on the front. -/
theorem insertBlock_perm (b : Block) (l : List Block) : (insertBlock b l).Perm (b :: l) := by
  induction l with
  | nil => rfl
  | cons x xs ih =>
    rw [insertBlock]
    split
    · rfl
    · exact ((ih.cons x).trans (List.Perm.swap b x xs))

/-- The sorted copy is a permutation of the input list. -/
theorem sortBlocks_perm (l : List Block) : (sortBlocks l).Perm l := by
  induction l with
  | nil => rfl
  | cons x xs ih => exact (insertBlock_perm x (sortBlocks xs)).trans (ih.cons x)

end SortBlockOutput

/-! Theorems settling the claims. -/

/-- C4: on the three blocks A(addr=0,size=10), B(addr=10,size=5),
C(addr=100,size=1) (fed to the analyzer in the order B, C, A), the sorted
order is A, B, C; A is reported next to B, B is reported next to A, and C is
reported not next to any other block. -/
theorem c4_adjacency_example :
    SortBlockOutput.sortBlocks [c4B, c4C, c4A] = [c4A, c4B, c4C] ∧
    SortBlockOutput.analyze [c4B, c4C, c4A] =
      [.nextTo c4B, .nextTo c4A, .isolated] := by decide

/-- C5 counterexample: on two distinct records with identical addresses the
analyzer emits no DegenerateInput signal at all.  Its per-block report type
(`SortBlockOutput.Adjacency`, taken from the code's print statements) has no
error case, the sort silently keeps the (arbitrary) input order — whichever of
the two orders is fed in survives — and both blocks get an ordinary report. -/
theorem c5_duplicate_address_counterexample :
    SortBlockOutput.sortBlocks [c5b1, c5b2] = [c5b1, c5b2] ∧
    SortBlockOutput.sortBlocks [c5b2, c5b1] = [c5b2, c5b1] ∧
    SortBlockOutput.analyze [c5b1, c5b2] = [.isolated, .isolated] := by decide

/-- C5 amended: the analyzer never signals duplicate addresses; it reports one
plain adjacency verdict for every input block (analysis never aborts), and two
blocks with equal addresses are silently kept in their input order by the
stable sort. -/
theorem c5_duplicate_address_amended :
    (∀ data : List SortBlockOutput.Block,
      (SortBlockOutput.analyze data).length = data.length) ∧
    (∀ a b : SortBlockOutput.Block, a.address = b.address →
      SortBlockOutput.sortBlocks [a, b] = [a, b]) := by
  constructor
  · intro data
    simp [SortBlockOutput.analyze, SortBlockOutput.adjacencyReport,
      (SortBlockOutput.sortBlocks_perm data).length_eq]
  · intro a b h
    simp [SortBlockOutput.sortBlocks, SortBlockOutput.insertBlock, h, le_refl]

/-- C5 witness: the amended theorem applied to the two concrete equal-address
blocks. -/
theorem c5_duplicate_address_witness :
    SortBlockOutput.sortBlocks [c5b1, c5b2] = [c5b1, c5b2] :=
  c5_duplicate_address_amended.2 c5b1 c5b2 (by decide)

/-- C9: the analyzer never mutates its input: the list bound to `data` after
the run is the input itself (same records, same fields, same order), and what
was sorted is a separate copy — a permutation of the input. -/
theorem c9_analyzer_no_mutation :
    ∀ data : List SortBlockOutput.Block,
      (SortBlockOutput.analyzerRun data).1 = data ∧
      ((SortBlockOutput.analyzerRun data).2.1).Perm data :=
  fun data => ⟨rfl, SortBlockOutput.sortBlocks_perm data⟩

/-- C7: any framed stream whose first byte is not 0x01 fails with the fatal
unrecognized-command error, and the result does not depend on any byte after
the first (no further bytes are read), so no partial record sequence exists. -/
theorem c7_bad_command_fatal :
    ∀ (c : Nat) (rest rest2 : List Nat), c ≠ 1 →
      ProcessRawSerialDump.decode (c :: rest) = .error .invalidCommand ∧
      ProcessRawSerialDump.decode (c :: rest) = ProcessRawSerialDump.decode (c :: rest2) := by
  intro c rest rest2 hc
  constructor <;> simp [ProcessRawSerialDump.decode, hc]

/-- C7 witness: the theorem applied to the stream starting with 0x02. -/
theorem c7_bad_command_fatal_witness :
    ProcessRawSerialDump.decode [2] = .error .invalidCommand ∧
    ProcessRawSerialDump.decode [2] = ProcessRawSerialDump.decode [2, 55] :=
  c7_bad_command_fatal 2 [] [55] (by decide)

/-- C8: raw-array decoding of any buffer whose length is not a multiple of 32
fails with the fatal framing error (the failed `assert` aborts before `parse`
runs), yielding no partial record sequence. -/
theorem c8_raw_misalignment_fatal :
    ∀ bytes : List Nat, bytes.length % 32 ≠ 0 →
      ParseHeapRaw.init bytes = .error .framing := by
  intro bytes h
  simp [ParseHeapRaw.init, h]

/-- C8 witness: the theorem applied to a 5-byte buffer. -/
theorem c8_raw_misalignment_fatal_witness :
    ParseHeapRaw.init [0, 0, 0, 0, 0] = .error .framing :=
  c8_raw_misalignment_fatal [0, 0, 0, 0, 0] (by decide)

/-- Helper: the address validation of `read_block` can never succeed: the code
masks the TOP 16 bits (`address & 0xFFFF000000000000`, a multiple of 2^48) but
compares them with `TEST_ALLOCATOR_SIGN = 0x545345540000`, whose set bits lie
in positions 16-47 (its bit 18 is set, while bit 18 of the mask is clear). -/
theorem sign_check_unsatisfiable (a : Nat) :
    (a &&& 0xFFFF000000000000 == ProcessRawSerialDump.TEST_ALLOCATOR_SIGN) = false := by
  rw [beq_eq_false_iff_ne]
  intro h
  have h18 := congrArg (fun n => n.testBit 18) h
  simp only [Nat.testBit_land] at h18
  rw [show Nat.testBit 0xFFFF000000000000 18 = false from by decide,
    show Nat.testBit ProcessRawSerialDump.TEST_ALLOCATOR_SIGN 18 = true from by decide] at h18
  simp at h18

/-- C2 (code bug): the advisory "Invalid address" warning is emitted for EVERY
decoded record, not only for mismatched ones — in particular (first conjunct)
for a record whose address `0x545345540000` genuinely carries the TEST
allocator signature.  The check `address & 0xFFFF000000000000 ==
TEST_ALLOCATOR_SIGN` compares the top-16-bit field against a constant whose
bits lie at positions 16-47, so it is unsatisfiable and the claimed
no-warning case never occurs. -/
theorem c2_sign_check_bug :
    (ProcessRawSerialDump.read_block c2input 0 =
      some ({ size := 0, is_free := false, address := 0x545345540000,
              is_reuseable := false }, true)) ∧
    ∀ (data : List Nat) (i : Nat) (b : ProcessRawSerialDump.Block) (w : Bool),
      ProcessRawSerialDump.read_block data i = some (b, w) → w = true := by
  refine ⟨by decide, ?_⟩
  intro data i b w h
  rw [ProcessRawSerialDump.read_block] at h
  cases h8 : data[i + 8]? with
  | none => rw [h8] at h; simp at h
  | some fb =>
    rw [h8] at h
    cases h17 : data[i + 17]? with
    | none => rw [h17] at h; simp at h
    | some rb =>
      rw [h17] at h
      simp only [Option.some.injEq, Prod.mk.injEq] at h
      rw [← h.2, sign_check_unsatisfiable]
      rfl

/-- C2 witness: the general conjunct applied to the concrete signature-carrying
record, its hypothesis discharged by the concrete conjunct's computation. -/
theorem c2_sign_check_bug_witness : (true : Bool) = true :=
  c2_sign_check_bug.2 c2input 0
    { size := 0, is_free := false, address := 0x545345540000, is_reuseable := false } true
    (by decide)

/-- Helper: a record read whose full 18-byte footprint lies inside the buffer
succeeds (both fallible one-byte reads are in bounds). -/
theorem read_block_isSome (data : List Nat) (i : Nat) (h : i + 18 ≤ data.length) :
    (ProcessRawSerialDump.read_block data i).isSome := by
  rw [ProcessRawSerialDump.read_block]
  rw [List.getElem?_eq_getElem (show i + 8 < data.length by omega),
    List.getElem?_eq_getElem (show i + 17 < data.length by omega)]
  rfl

/-- Helper: the fuel-indexed record loop never fails, whatever the fuel: the
loop guard `index+32 < len(data)` leaves at least 33 bytes past the cursor,
and a record read touches only the next 18. -/
theorem readBlocksGo_isSome (data : List Nat) :
    ∀ fuel index : Nat, (ProcessRawSerialDump.readBlocksGo data fuel index).isSome := by
  intro fuel
  induction fuel with
  | zero => intro i; rfl
  | succ f ih =>
    intro i
    rw [ProcessRawSerialDump.readBlocksGo]
    split
    · obtain ⟨bw, hbw⟩ := Option.isSome_iff_exists.mp (read_block_isSome data i (by omega))
      obtain ⟨rest, hrest⟩ := Option.isSome_iff_exists.mp (ih (i + 18))
      rw [hbw, hrest]
      rfl
    · rfl

/-- Helper: the record loop never fails. -/
theorem readBlocks_isSome (data : List Nat) (index : Nat) :
    (ProcessRawSerialDump.readBlocks data index).isSome :=
  readBlocksGo_isSome data data.length index

/-- Helper: once the fuel is at least `len(data) - index`, one more unit of
fuel changes nothing — so `data.length` fuel faithfully runs the unbounded
`while` loop, whose cursor advances by 18 every iteration. -/
theorem readBlocksGo_stable (data : List Nat) :
    ∀ fuel index : Nat, data.length ≤ fuel + index →
      ProcessRawSerialDump.readBlocksGo data fuel index =
        ProcessRawSerialDump.readBlocksGo data (fuel + 1) index := by
  intro fuel
  induction fuel with
  | zero =>
    intro i h
    rw [ProcessRawSerialDump.readBlocksGo, ProcessRawSerialDump.readBlocksGo]
    simp [show ¬(i + 32 < data.length) by omega]
  | succ f ih =>
    intro i h
    conv_lhs => rw [ProcessRawSerialDump.readBlocksGo]
    conv_rhs => rw [ProcessRawSerialDump.readBlocksGo]
    by_cases hg : i + 32 < data.length
    · simp only [if_pos hg]
      rw [ih (i + 18) (by omega)]
    · simp [hg]

/-- Helper: the loop equation satisfied by `readBlocks`: it mirrors
`while index+32 < len(data): blocks.append(read_block())` exactly. -/
theorem readBlocks_eq (data : List Nat) (index : Nat) :
    ProcessRawSerialDump.readBlocks data index =
      if index + 32 < data.length then
        match ProcessRawSerialDump.read_block data index,
            ProcessRawSerialDump.readBlocks data (index + 18) with
        | some bw, some rest => some (bw :: rest)
        | _, _ => none
      else some [] := by
  rcases hn : data.length with _ | n
  · rw [ProcessRawSerialDump.readBlocks, hn, ProcessRawSerialDump.readBlocksGo]
    simp [show ¬(index + 32 < data.length) by omega]
  · have hgo : ProcessRawSerialDump.readBlocksGo data n (index + 18) =
        ProcessRawSerialDump.readBlocks data (index + 18) := by
      rw [readBlocksGo_stable data n (index + 18) (by omega),
        ProcessRawSerialDump.readBlocks, hn]
    conv_lhs => rw [ProcessRawSerialDump.readBlocks, hn, ProcessRawSerialDump.readBlocksGo, hgo]
    rw [hn]

/-- Helper: when at most 32 bytes remain past the cursor the loop stops at
once, returning the records read so far (the trailing bytes are discarded
without any error). -/
theorem readBlocks_stop (data : List Nat) (index : Nat) (h : data.length ≤ index + 32) :
    ProcessRawSerialDump.readBlocks data index = some [] := by
  rw [readBlocks_eq]
  simp [show ¬(index + 32 < data.length) by omega]

/-- Helper: when more than 32 bytes remain past the cursor the loop reads one
more record. -/
theorem readBlocks_step (data : List Nat) (index : Nat) (h : index + 32 < data.length) :
    ∃ bw rest, ProcessRawSerialDump.readBlocks data index = some (bw :: rest) := by
  rw [readBlocks_eq]
  obtain ⟨bw, hbw⟩ := Option.isSome_iff_exists.mp (read_block_isSome data index (by omega))
  obtain ⟨rest, hrest⟩ := Option.isSome_iff_exists.mp (readBlocks_isSome data (index + 18))
  rw [if_pos h, hbw, hrest]
  exact ⟨bw, rest, rfl⟩

/-- C1 counterexample: on the 45-byte stream with header
`[0x01, 0x03, 'a', 'b', 'c', 36 as LE u32]` followed by exactly two 18-byte
records, the decoder succeeds but returns exactly ONE record, not two: the
loop guard `index+32 < len(data)` demands more than 32 bytes past the cursor
although a framed record takes only 18, so after the first record (cursor 27,
18 bytes left) the loop stops and the second record is discarded. -/
theorem c1_framed_decode_counterexample :
    ProcessRawSerialDump.decode c1input =
      .ok { filename := [97, 98, 99], fileSize := 36, fileSizeWarn := false,
            blocks := [{ size := 0, is_free := false, address := 0, is_reuseable := false }],
            blockWarns := [true] } := by decide

/-- C1 amended: on that 45-byte stream the decoder returns exactly one record
and no fatal error; in general a record is read exactly when MORE than 32
bytes remain past the cursor, and when 32 or fewer bytes remain the loop stops
and the trailing bytes are discarded without error. -/
theorem c1_framed_decode_amended :
    ((ProcessRawSerialDump.decode c1input).map fun o => o.blocks.length) = .ok 1 ∧
    (∀ (data : List Nat) (i : Nat), data.length ≤ i + 32 →
      ProcessRawSerialDump.readBlocks data i = some []) ∧
    (∀ (data : List Nat) (i : Nat), i + 32 < data.length →
      ∃ bw rest, ProcessRawSerialDump.readBlocks data i = some (bw :: rest)) :=
  ⟨by decide, readBlocks_stop, readBlocks_step⟩

/-- C1 witness: the stop conjunct applied to a 1-byte buffer and the step
conjunct applied to the concrete 45-byte stream at cursor 9. -/
theorem c1_framed_decode_witness :
    ProcessRawSerialDump.readBlocks [0] 0 = some [] ∧
    ∃ bw rest, ProcessRawSerialDump.readBlocks c1input 9 = some (bw :: rest) :=
  ⟨c1_framed_decode_amended.2.1 [0] 0 (by decide),
   c1_framed_decode_amended.2.2 c1input 9 (by decide)⟩

/-- C10: the framed decoder performs no out-of-bounds byte access: for any
buffer holding its full header (`6 + filename_length` bytes) the run never
fails with the `IndexError` outcome, and whenever the record loop's guard
admits a read at cursor `i` (more than 32 bytes remain), the read succeeds and
its whole 18-byte footprint `[i, i+18)` lies inside the buffer. -/
theorem c10_loop_in_bounds :
    ∀ (data : List Nat) (fl : Nat), data[1]? = some fl → 6 + fl ≤ data.length →
      ProcessRawSerialDump.decode data ≠ .error .oobRead ∧
      ∀ i, i + 32 < data.length →
        (ProcessRawSerialDump.read_block data i).isSome ∧ i + 18 ≤ data.length := by
  intro data fl h1 hlen
  refine ⟨?_, fun i hi => ⟨read_block_isSome data i (by omega), by omega⟩⟩
  have h0 : data[0]? = some data[0] := List.getElem?_eq_getElem (by omega)
  rw [ProcessRawSerialDump.decode, h0]
  dsimp only
  by_cases hc : data[0] = 1
  · rw [if_pos hc, h1]
    dsimp only
    by_cases hv : validUtf8 (slice data 2 fl) = true
    · rw [if_pos hv]
      obtain ⟨bws, hbws⟩ :=
        Option.isSome_iff_exists.mp (readBlocks_isSome data (6 + fl))
      rw [hbws]
      intro h
      exact Except.noConfusion h
    · rw [if_neg hv]
      intro h
      rw [Except.error.injEq] at h
      exact ProcessRawSerialDump.DecodeError.noConfusion h
  · rw [if_neg hc]
    intro h
    rw [Except.error.injEq] at h
    exact ProcessRawSerialDump.DecodeError.noConfusion h

/-- C10 witness: the theorem applied to the minimal header-only stream. -/
theorem c10_loop_in_bounds_witness :
    ProcessRawSerialDump.decode c10winput ≠ .error .oobRead :=
  (c10_loop_in_bounds c10winput 0 (by decide) (by decide)).1

/-- C6 counterexample: on the stream `[0x01, 0x01, 0xFF, ...]` (filename
length 1, filename byte 0xFF, which is not valid UTF-8, followed by more than
a full record of further bytes) the decoder aborts with the fatal
`UnicodeDecodeError` outcome instead of warning and continuing: no record
sequence at all is produced, although the remaining bytes hold records. -/
theorem c6_filename_utf8_counterexample :
    ProcessRawSerialDump.decode c6input = .error .filenameNotUtf8 := by decide

/-- C6 amended: after the length byte L, exactly L bytes are taken as the
filename (second conjunct, whenever the buffer holds them); but if those bytes
are not valid UTF-8 the decoder ABORTS with a fatal error — the uncaught
`bytes(filename).decode('utf-8')` exception — rather than emitting a non-fatal
warning and continuing. -/
theorem c6_filename_utf8_amended :
    ∀ (data : List Nat) (fl : Nat), data[0]? = some 1 → data[1]? = some fl →
      validUtf8 (slice data 2 fl) = false →
      ProcessRawSerialDump.decode data = .error .filenameNotUtf8 ∧
      (2 + fl ≤ data.length → (slice data 2 fl).length = fl) := by
  intro data fl h0 h1 hv
  constructor
  · rw [ProcessRawSerialDump.decode, h0]
    dsimp only
    rw [if_pos rfl, h1]
    dsimp only
    rw [if_neg (by rw [hv]; exact Bool.false_ne_true)]
  · intro h
    simp only [slice, List.length_take, List.length_drop]
    omega

/-- C6 witness: the amended theorem applied to the stream whose 2-byte
filename `[0xC2, 0x20]` is an invalid UTF-8 sequence. -/
theorem c6_filename_utf8_witness :
    ProcessRawSerialDump.decode c6winput = .error .filenameNotUtf8 ∧
    (2 + 2 ≤ c6winput.length → (slice c6winput 2 2).length = 2) :=
  c6_filename_utf8_amended c6winput 2 (by decide) (by decide) (by decide)

/-- Helper: re-encoding the little-endian value of a byte string recovers the
string, provided every entry really is a byte. -/
theorem leBytes_leNat (bs : List Nat) (h : ∀ b ∈ bs, b < 256) :
    leBytes (leNat bs) bs.length = bs := by
  induction bs with
  | nil => rfl
  | cons b rest ih =>
    obtain ⟨hb, hrest⟩ := List.forall_mem_cons.mp h
    simp only [leNat, List.length_cons, leBytes]
    refine List.cons_eq_cons.mpr ⟨by omega, ?_⟩
    rw [show (b + 256 * leNat rest) / 256 = leNat rest by omega]
    exact ih hrest

/-- Helper: round-trip of a single raw-array chunk: decoding a chunk of at
least 18 bytes and re-encoding it reproduces its first 18 bytes, provided its
two flag bytes (offsets 8 and 17) are 0 or 1 (decoding collapses any nonzero
flag byte to `true`, so other values cannot survive). -/
theorem encodeRecord_parseChunk (c : List Nat) (hlen : 18 ≤ c.length)
    (hb : ∀ b ∈ c, b < 256) (h8 : c.getD 8 0 ≤ 1) (h17 : c.getD 17 0 ≤ 1) :
    (ParseHeapRaw.encodeRecord (ParseHeapRaw.parseChunk c)).take 18 = c.take 18 := by
  rcases c with _ | ⟨b0, _ | ⟨b1, _ | ⟨b2, _ | ⟨b3, _ | ⟨b4, _ | ⟨b5, _ | ⟨b6, _ | ⟨b7, _ | ⟨b8, _ | ⟨b9, _ | ⟨b10, _ | ⟨b11, _ | ⟨b12, _ | ⟨b13, _ | ⟨b14, _ | ⟨b15, _ | ⟨b16, _ | ⟨b17, rest⟩⟩⟩⟩⟩⟩⟩⟩⟩⟩⟩⟩⟩⟩⟩⟩⟩⟩
  all_goals try (simp only [List.length_cons, List.length_nil] at hlen; omega)
  simp only [List.forall_mem_cons] at hb
  obtain ⟨hb0, hb1, hb2, hb3, hb4, hb5, hb6, hb7, -, hb9, hb10, hb11, hb12, hb13, hb14,
    hb15, hb16, -, -⟩ := hb
  have h8b : b8 ≤ 1 := h8
  have h17b : b17 ≤ 1 := h17
  have r1 : leBytes (leNat [b0, b1, b2, b3, b4, b5, b6, b7]) 8 = [b0, b1, b2, b3, b4, b5, b6, b7] :=
    leBytes_leNat [b0, b1, b2, b3, b4, b5, b6, b7] (by intro x hx; fin_cases hx <;> assumption)
  have r2 : leBytes (leNat [b9, b10, b11, b12, b13, b14, b15, b16]) 8 =
      [b9, b10, b11, b12, b13, b14, b15, b16] :=
    leBytes_leNat [b9, b10, b11, b12, b13, b14, b15, b16] (by intro x hx; fin_cases hx <;> assumption)
  show (leBytes (leNat [b0, b1, b2, b3, b4, b5, b6, b7]) 8 ++ [if (b8 != 0) = true then 1 else 0] ++
      leBytes (leNat [b9, b10, b11, b12, b13, b14, b15, b16]) 8 ++
      [if (b17 != 0) = true then 1 else 0] ++ List.replicate 14 0).take 18 =
    (b0 :: b1 :: b2 :: b3 :: b4 :: b5 :: b6 :: b7 :: b8 :: b9 :: b10 :: b11 :: b12 :: b13 ::
      b14 :: b15 :: b16 :: b17 :: rest).take 18
  rw [r1, r2]
  have e8 : b8 = 0 ∨ b8 = 1 := by omega
  have e17 : b17 = 0 ∨ b17 = 1 := by omega
  rcases e8 with rfl | rfl <;> rcases e17 with rfl | rfl <;> rfl

/-- C3 counterexample: a 32-byte buffer whose `is_free` byte (offset 8) is 2
decodes fine (one record, `is_free = true`), but re-encoding writes 1 at
offset 8, so the original bytes [0,18) are NOT reproduced. -/
theorem c3_roundtrip_counterexample :
    c3bad.length % 32 = 0 ∧ (ParseHeapRaw.parse c3bad).length = 1 ∧
    (ParseHeapRaw.encodeRecord ((ParseHeapRaw.parse c3bad).getD 0
        { size := 0, is_free := false, addr := 0, is_reuseable := false })).take 18
      ≠ slice c3bad 0 18 := by decide

/-- C3 amended: for every byte buffer (entries < 256) whose length is a
multiple of 32, decoding produces exactly length/32 records, and — provided
each record's two flag bytes (chunk offsets 8 and 17) are 0 or 1 —
re-encoding each decoded record reproduces the original bytes [0,18) of its
32-byte chunk. -/
theorem c3_roundtrip_amended :
    ∀ bytes : List Nat, bytes.length % 32 = 0 → (∀ b ∈ bytes, b < 256) →
      (∀ i, i < bytes.length / 32 →
        bytes.getD (32 * i + 8) 0 ≤ 1 ∧ bytes.getD (32 * i + 17) 0 ≤ 1) →
      (ParseHeapRaw.parse bytes).length = bytes.length / 32 ∧
      ∀ i, i < bytes.length / 32 →
        (ParseHeapRaw.encodeRecord ((ParseHeapRaw.parse bytes).getD i
            { size := 0, is_free := false, addr := 0, is_reuseable := false })).take 18
          = slice bytes (32 * i) 18 := by
  intro bytes hlen hb hflag
  have hcount : (bytes.length + 31) / 32 = bytes.length / 32 := by omega
  constructor
  · simp [ParseHeapRaw.parse, hcount]
  · intro i hi
    have hgetD : (ParseHeapRaw.parse bytes).getD i
        { size := 0, is_free := false, addr := 0, is_reuseable := false }
        = ParseHeapRaw.parseChunk (slice bytes (32 * i) 32) := by
      rw [ParseHeapRaw.parse, List.getD_eq_getElem?_getD, List.getElem?_map,
        List.getElem?_range (show i < (bytes.length + 31) / 32 by omega)]
      rfl
    have hclen : (slice bytes (32 * i) 32).length = 32 := by
      simp only [slice, List.length_take, List.length_drop]
      omega
    have hcb : ∀ b ∈ slice bytes (32 * i) 32, b < 256 := fun b hbc =>
      hb b (List.drop_subset _ _ (List.take_subset _ _ hbc))
    have hgd8 : (slice bytes (32 * i) 32).getD 8 0 = bytes.getD (32 * i + 8) 0 := by
      simp only [slice, List.getD_eq_getElem?_getD]
      rw [List.getElem?_take, if_pos (show (8 : Nat) < 32 by omega), List.getElem?_drop]
    have hgd17 : (slice bytes (32 * i) 32).getD 17 0 = bytes.getD (32 * i + 17) 0 := by
      simp only [slice, List.getD_eq_getElem?_getD]
      rw [List.getElem?_take, if_pos (show (17 : Nat) < 32 by omega), List.getElem?_drop]
    have hrt := encodeRecord_parseChunk (slice bytes (32 * i) 32) (by omega) hcb
      (by rw [hgd8]; exact (hflag i hi).1) (by rw [hgd17]; exact (hflag i hi).2)
    rw [hgetD, hrt]
    simp [slice, List.take_take]

/-- C3 witness: the amended theorem applied to a concrete well-formed 32-byte
buffer, with its record 0. -/
theorem c3_roundtrip_witness :
    (ParseHeapRaw.parse c3good).length = c3good.length / 32 ∧
    (ParseHeapRaw.encodeRecord ((ParseHeapRaw.parse c3good).getD 0
        { size := 0, is_free := false, addr := 0, is_reuseable := false })).take 18
      = slice c3good (32 * 0) 18 :=
  ⟨(c3_roundtrip_amended c3good (by decide) (by decide) (by decide)).1,
   (c3_roundtrip_amended c3good (by decide) (by decide) (by decide)).2 0 (by decide)⟩

end Novos
